import Mathlib

/-!
Shallow embedding of `src/raster/envelope.py` (spatial_tools): the plain
`Envelope` rectangle algebra, the grid-aware `RasterEnvelope` with its
self-snapping constructor, the snapping helpers `get_num_cells`,
`calculate_snapped_window` and `get_minimum_bounding_envelope`, and the
reducers `min_of` / `max_of`.

Coordinates are modelled as exact rationals (`ℚ`).  The Python source mixes
binary floats with `decimal.Decimal` arithmetic precisely so that the
quotient/remainder tests behave like exact arithmetic on the given decimal
inputs; in the embedding both `decimal.Decimal` division/remainder and
`math.fmod` therefore become the corresponding exact operations on `ℚ`.
Python's `int(...)` truncation toward zero is modelled by `ratTrunc`.
Exceptions become `Except EnvelopeError`: the source has a single exception
class `EnvelopeError` raised with one of two messages, modelled as the two
constructors of the `EnvelopeError` inductive below.
-/

namespace SpatialTools

/-- The source's `EnvelopeError` exception, split by its two raise sites:
`invalidEnvelope` stands for the message `Invalid envelope shape`
(raised by `Envelope.__init__`), `disjointEnvelopes` for
`The two envelopes do not overlap` (raised by
`get_minimum_bounding_envelope`). -/
inductive EnvelopeError where
  | invalidEnvelope
  | disjointEnvelopes
deriving DecidableEq

/-- PRECISION = 0.0000001 from envelope.py line 13. -/
def PRECISION : ℚ := 1 / 10000000

/-- Truncation toward zero, as Python's `int(...)` applied to a
`decimal.Decimal` (or float) value. -/
def ratTrunc (q : ℚ) : ℤ :=
  if q < 0 then -⌊-q⌋ else ⌊q⌋

/-- Remainder with the sign of the dividend, as both `math.fmod` and the
`decimal.Decimal` `%` operator compute it on exact inputs:
`a - b * trunc (a / b)`.  (Both uses in the source have a nonzero second
operand.) -/
def pyFmod (a b : ℚ) : ℚ :=
  a - b * ratTrunc (a / b)

/-- The plain rectangular extent: fields `_x_min`, `_y_min`, `_x_max`,
`_y_max` of class `Envelope`. -/
structure Envelope where
  x_min : ℚ
  y_min : ℚ
  x_max : ℚ
  y_max : ℚ
deriving DecidableEq

/-- Constructor `Envelope.__init__`: stores the four coordinates and raises
`EnvelopeError` (message `Invalid envelope shape`) unless
`x_min < x_max` and `y_min < y_max` (`_assert_valid_envelope`). -/
def mkEnvelope (x_min y_min x_max y_max : ℚ) : Except EnvelopeError Envelope :=
  if x_min < x_max ∧ y_min < y_max then
    .ok ⟨x_min, y_min, x_max, y_max⟩
  else
    .error .invalidEnvelope

/-- Method `Envelope.is_subset`: boundary-inclusive containment of `self`
in `other`, written as the source's four early-return comparisons. -/
def Envelope.is_subset (self other : Envelope) : Bool :=
  !(decide (self.x_min < other.x_min)) &&
  !(decide (self.x_max > other.x_max)) &&
  !(decide (self.y_min < other.y_min)) &&
  !(decide (self.y_max > other.y_max))

/-- Method `Envelope.is_superset`: boundary-inclusive containment of
`other` in `self`. -/
def Envelope.is_superset (self other : Envelope) : Bool :=
  !(decide (self.x_min > other.x_min)) &&
  !(decide (self.x_max < other.x_max)) &&
  !(decide (self.y_min > other.y_min)) &&
  !(decide (self.y_max < other.y_max))

/-- Method `Envelope.is_disjoint`: strict comparisons, so touching edges do
not count as disjoint. -/
def Envelope.is_disjoint (self other : Envelope) : Bool :=
  decide (self.x_min > other.x_max) ||
  decide (self.x_max < other.x_min) ||
  decide (self.y_min > other.y_max) ||
  decide (self.y_max < other.y_min)

/-- Method `Envelope.union`: component-wise min of minima and max of
maxima, passed through the validating constructor. -/
def Envelope.union (self other : Envelope) : Except EnvelopeError Envelope :=
  mkEnvelope (min self.x_min other.x_min) (min self.y_min other.y_min)
    (max self.x_max other.x_max) (max self.y_max other.y_max)

/-- Method `Envelope.intersection`: component-wise max of minima and min of
maxima, passed through the validating constructor (which raises for
disjoint inputs). -/
def Envelope.intersection (self other : Envelope) : Except EnvelopeError Envelope :=
  mkEnvelope (max self.x_min other.x_min) (max self.y_min other.y_min)
    (min self.x_max other.x_max) (min self.y_max other.y_max)

/-- Function `get_num_cells`: number of cells of size `cell_size` needed to
cover the range `coord_max - coord_min`, computed as the source does with
`decimal.Decimal`: truncated quotient, plus one if the remainder is
nonzero. -/
def get_num_cells (coord_max coord_min cell_size : ℚ) : ℤ :=
  let coord_range := coord_max - coord_min
  let n_cells := ratTrunc (coord_range / cell_size)
  if pyFmod coord_range cell_size ≠ 0 then n_cells + 1 else n_cells

/-- Function `calculate_snapped_window`: given an envelope's four
coordinates and a cell size, the tuple `(x_max, y_min, x_size, y_size)` of
the adjusted lower-right corner and the cell counts. -/
def calculate_snapped_window (x_min y_min x_max y_max cell_size : ℚ) :
    ℚ × ℚ × ℤ × ℤ :=
  let x_size := get_num_cells x_max x_min cell_size
  let y_size := get_num_cells y_max y_min cell_size
  (x_min + x_size * cell_size, y_max - y_size * cell_size, x_size, y_size)

/-- The grid-aware extent: class `RasterEnvelope`, with the fields stored
after `__init__` ran (so `x_max`, `y_min`, `x_size`, `y_size` are the
snapped values). -/
structure RasterEnvelope where
  x_min : ℚ
  y_min : ℚ
  x_max : ℚ
  y_max : ℚ
  cell_size : ℚ
  x_size : ℤ
  y_size : ℤ
deriving DecidableEq

/-- The plain envelope carried by a `RasterEnvelope` (the inherited
`Envelope` fields). -/
def RasterEnvelope.toEnvelope (self : RasterEnvelope) : Envelope :=
  ⟨self.x_min, self.y_min, self.x_max, self.y_max⟩

/-- Constructor `RasterEnvelope.__init__`: validate as an `Envelope`, then
replace `x_max`, `y_min`, `x_size`, `y_size` by the snapped window; `x_min`
and `y_max` are kept as passed. -/
def mkRasterEnvelope (x_min y_min x_max y_max cell_size : ℚ) :
    Except EnvelopeError RasterEnvelope :=
  (mkEnvelope x_min y_min x_max y_max).bind fun env =>
    let w := calculate_snapped_window env.x_min env.y_min env.x_max env.y_max cell_size
    .ok ⟨env.x_min, w.2.1, w.1, env.y_max, cell_size, w.2.2.1, w.2.2.2⟩

/-- Method `RasterEnvelope.__eq__` exactly as written in the source: note
that lines 223 and 225 of envelope.py repeat the `x_min` comparison of line
219, so `x_max` and `y_max` are never compared.  The source's
`math.fabs(...) > PRECISION` on IEEE doubles is modelled as the exact
comparison on ℚ; the two can disagree only within about one unit in the
last place of the tolerance itself, so conclusions drawn from this model
use inputs whose comparisons are decided with margins far wider than
double rounding error (see the claim C1 theorem below). -/
def RasterEnvelope.eq (self other : RasterEnvelope) : Bool :=
  !(decide (|self.x_min - other.x_min| > PRECISION)) &&
  !(decide (|self.y_min - other.y_min| > PRECISION)) &&
  !(decide (|self.x_min - other.x_min| > PRECISION)) &&
  !(decide (|self.x_min - other.x_min| > PRECISION)) &&
  !(decide (|self.cell_size - other.cell_size| > PRECISION)) &&
  decide (self.x_size = other.x_size) &&
  decide (self.y_size = other.y_size)

/-- Method `RasterEnvelope.is_snapped`: same cell size, and the `x_min` and
`y_max` offsets between the two envelopes are exact multiples of the cell
size (`math.fmod` test). -/
def RasterEnvelope.is_snapped (self other : RasterEnvelope) : Bool :=
  decide (self.cell_size = other.cell_size) &&
  decide (pyFmod (self.x_min - other.x_min) self.cell_size = 0) &&
  decide (pyFmod (self.y_max - other.y_max) self.cell_size = 0)

/-- Method `RasterEnvelope.is_snapped_subset`. -/
def RasterEnvelope.is_snapped_subset (self other : RasterEnvelope) : Bool :=
  self.is_snapped other && self.toEnvelope.is_subset other.toEnvelope

/-- Method `RasterEnvelope.is_snapped_superset`. -/
def RasterEnvelope.is_snapped_superset (self other : RasterEnvelope) : Bool :=
  self.is_snapped other && self.toEnvelope.is_superset other.toEnvelope

/-- Method `RasterEnvelope.get_offset_from_xy`: the column and row of the
cell containing `(x, y)`, by flooring the scaled distances from the
upper-left anchor. -/
def RasterEnvelope.get_offset_from_xy (self : RasterEnvelope) (x y : ℚ) : ℤ × ℤ :=
  (⌊(x - self.x_min) / self.cell_size⌋, ⌊(self.y_max - y) / self.cell_size⌋)

/-- Method `RasterEnvelope.get_xy_from_offset`: the upper-left corner
coordinate of the cell at column `x_off`, row `y_off`. -/
def RasterEnvelope.get_xy_from_offset (self : RasterEnvelope) (x_off y_off : ℤ) :
    ℚ × ℚ :=
  (self.x_min + x_off * self.cell_size, self.y_max - y_off * self.cell_size)

/-- Function `get_minimum_bounding_envelope`: raise `disjointEnvelopes` if
`bound_env` and `snap_re` are disjoint, otherwise snap `bound_env`'s
upper-left corner back onto `snap_re`'s grid and rebuild a
`RasterEnvelope` from that corner and `bound_env`'s lower-right corner. -/
def get_minimum_bounding_envelope (bound_env : Envelope) (snap_re : RasterEnvelope) :
    Except EnvelopeError RasterEnvelope :=
  if bound_env.is_disjoint snap_re.toEnvelope then
    .error .disjointEnvelopes
  else
    let off := snap_re.get_offset_from_xy bound_env.x_min bound_env.y_max
    let x_min := snap_re.x_min + off.1 * snap_re.cell_size
    let y_max := snap_re.y_max - off.2 * snap_re.cell_size
    mkRasterEnvelope x_min bound_env.y_min bound_env.x_max y_max snap_re.cell_size

/-- Method `RasterEnvelope.union` with its alignment policy, branches in
source order; `copy.copy` returns an identical value. -/
def RasterEnvelope.union (self other : RasterEnvelope) (snap_this : Bool) :
    Except EnvelopeError RasterEnvelope :=
  if self.is_snapped_subset other then .ok other
  else if self.is_snapped_superset other then .ok self
  else if self.toEnvelope.is_subset other.toEnvelope then
    if snap_this then get_minimum_bounding_envelope other.toEnvelope self
    else .ok other
  else if self.toEnvelope.is_superset other.toEnvelope then
    if snap_this then .ok self
    else get_minimum_bounding_envelope self.toEnvelope other
  else
    (self.toEnvelope.union other.toEnvelope).bind fun env =>
      if snap_this then get_minimum_bounding_envelope env self
      else get_minimum_bounding_envelope env other

/-- Method `RasterEnvelope.intersection` with its alignment policy,
branches in source order. -/
def RasterEnvelope.intersection (self other : RasterEnvelope) (snap_this : Bool) :
    Except EnvelopeError RasterEnvelope :=
  if self.is_snapped_subset other then .ok self
  else if self.is_snapped_superset other then .ok other
  else if self.toEnvelope.is_subset other.toEnvelope then
    if snap_this then .ok self
    else get_minimum_bounding_envelope self.toEnvelope other
  else if self.toEnvelope.is_superset other.toEnvelope then
    if snap_this then get_minimum_bounding_envelope other.toEnvelope self
    else .ok other
  else
    (self.toEnvelope.intersection other.toEnvelope).bind fun env =>
      if snap_this then get_minimum_bounding_envelope env self
      else get_minimum_bounding_envelope env other

/-- Function `min_of` on a nonempty sequence, passed as its first element
`re0` and the remaining elements `re_rest` (the Python code indexes
`re_list[0]` and loops from index 1).  Each step intersects the running
result with the next element using `RasterEnvelope.intersection` (with its
default `snap_this=True`) and re-snaps via
`get_minimum_bounding_envelope` against `snap_re`, which defaults to the
first element. -/
def min_of (re0 : RasterEnvelope) (re_rest : List RasterEnvelope)
    (snap_opt : Option RasterEnvelope) : Except EnvelopeError RasterEnvelope :=
  let snap_re := snap_opt.getD re0
  re_rest.foldlM
    (fun min_re re =>
      (min_re.intersection re true).bind fun min_env =>
        get_minimum_bounding_envelope min_env.toEnvelope snap_re)
    re0

/-- Function `max_of`: the same fold as `min_of` with
`RasterEnvelope.union` in place of the intersection. -/
def max_of (re0 : RasterEnvelope) (re_rest : List RasterEnvelope)
    (snap_opt : Option RasterEnvelope) : Except EnvelopeError RasterEnvelope :=
  let snap_re := snap_opt.getD re0
  re_rest.foldlM
    (fun max_re re =>
      (max_re.union re true).bind fun max_env =>
        get_minimum_bounding_envelope max_env.toEnvelope snap_re)
    re0

/-- The equality claim C1 describes (spec section 3): all four coordinates
and the cell size each within the fixed PRECISION tolerance, integer cell
counts exact.  Kept separate from `RasterEnvelope.eq` (the source method)
so the two can be compared. -/
def RasterEnvelope.eq_spec (self other : RasterEnvelope) : Bool :=
  decide (|self.x_min - other.x_min| ≤ PRECISION) &&
  decide (|self.y_min - other.y_min| ≤ PRECISION) &&
  decide (|self.x_max - other.x_max| ≤ PRECISION) &&
  decide (|self.y_max - other.y_max| ≤ PRECISION) &&
  decide (|self.cell_size - other.cell_size| ≤ PRECISION) &&
  decide (self.x_size = other.x_size) &&
  decide (self.y_size = other.y_size)

/-- The fold claim C2 describes (spec section 4.5) for `minimum_of`: each
step takes the plain unaligned `Envelope.intersection` of the running
result and the next element, then re-snaps that plain rectangle to the
reference grid.  Written from the spec's words, to be compared with
`min_of`. -/
def min_of_spec_plain (re0 : RasterEnvelope) (re_rest : List RasterEnvelope)
    (snap_opt : Option RasterEnvelope) : Except EnvelopeError RasterEnvelope :=
  let snap_re := snap_opt.getD re0
  re_rest.foldlM
    (fun min_re re =>
      (min_re.toEnvelope.intersection re.toEnvelope).bind fun env =>
        get_minimum_bounding_envelope env snap_re)
    re0

/-- The fold claim C2 describes for `maximum_of`: plain `Envelope.union`
then re-snap to the reference. -/
def max_of_spec_plain (re0 : RasterEnvelope) (re_rest : List RasterEnvelope)
    (snap_opt : Option RasterEnvelope) : Except EnvelopeError RasterEnvelope :=
  let snap_re := snap_opt.getD re0
  re_rest.foldlM
    (fun max_re re =>
      (max_re.toEnvelope.union re.toEnvelope).bind fun env =>
        get_minimum_bounding_envelope env snap_re)
    re0

/-- The amended claim C2's fold for `minimum_of`, written as explicit
recursion: each step computes the `RasterEnvelope.intersection` of the
running result and the next element (with its 4.4 alignment policy and its
default `snap_to_self = true`), then re-snaps that result to the reference
grid. -/
def min_of_spec_amended (snap_re : RasterEnvelope) :
    RasterEnvelope → List RasterEnvelope → Except EnvelopeError RasterEnvelope
  | acc, [] => .ok acc
  | acc, re :: rest =>
    (acc.intersection re true).bind fun env =>
      (get_minimum_bounding_envelope env.toEnvelope snap_re).bind fun acc2 =>
        min_of_spec_amended snap_re acc2 rest

/-- The amended claim C2's fold for `maximum_of`: `RasterEnvelope.union`
(with `snap_to_self = true`), then re-snap to the reference grid. -/
def max_of_spec_amended (snap_re : RasterEnvelope) :
    RasterEnvelope → List RasterEnvelope → Except EnvelopeError RasterEnvelope
  | acc, [] => .ok acc
  | acc, re :: rest =>
    (acc.union re true).bind fun env =>
      (get_minimum_bounding_envelope env.toEnvelope snap_re).bind fun acc2 =>
        max_of_spec_amended snap_re acc2 rest

/-- Well-formedness of a `RasterEnvelope` value: what holds of every
instance the source constructor can produce with a positive cell size.  The
stored extent is valid and is an exact multiple of the cell size in each
dimension. -/
def WF (r : RasterEnvelope) : Prop :=
  0 < r.cell_size ∧ r.x_min < r.x_max ∧ r.y_min < r.y_max ∧
    r.x_max - r.x_min = r.x_size * r.cell_size ∧
    r.y_max - r.y_min = r.y_size * r.cell_size

section NumericLemmas

lemma ratTrunc_intCast (k : ℤ) : ratTrunc (k : ℚ) = k := by
  unfold ratTrunc
  by_cases hk : (k : ℚ) < 0
  · rw [if_pos hk, ← Int.cast_neg, Int.floor_intCast, neg_neg]
  · rw [if_neg hk, Int.floor_intCast]

lemma ratTrunc_eq_floor {q : ℚ} (hq : 0 ≤ q) : ratTrunc q = ⌊q⌋ := by
  unfold ratTrunc
  rw [if_neg (not_lt.mpr hq)]

lemma pyFmod_eq_zero_iff {a b : ℚ} (hb : b ≠ 0) :
    pyFmod a b = 0 ↔ ∃ k : ℤ, a = k * b := by
  constructor
  · intro h
    refine ⟨ratTrunc (a / b), ?_⟩
    have := sub_eq_zero.mp h
    linarith [this]
  · rintro ⟨k, rfl⟩
    unfold pyFmod
    rw [mul_div_cancel_right₀ _ hb, ratTrunc_intCast]
    ring

lemma get_num_cells_eq_ceil {a b c : ℚ} (hr : 0 < a - b) (hc : 0 < c) :
    get_num_cells a b c = ⌈(a - b) / c⌉ := by
  simp only [get_num_cells]
  have hq : 0 ≤ (a - b) / c := le_of_lt (div_pos hr hc)
  rw [ratTrunc_eq_floor hq]
  by_cases hm : pyFmod (a - b) c = 0
  · rw [if_neg (by simpa using hm)]
    obtain ⟨k, hk⟩ := (pyFmod_eq_zero_iff (ne_of_gt hc)).mp hm
    rw [hk, mul_div_cancel_right₀ _ (ne_of_gt hc), Int.floor_intCast, Int.ceil_intCast]
  · rw [if_pos (by simpa using hm)]
    have hne : (a - b) / c ≠ ((⌊(a - b) / c⌋ : ℤ) : ℚ) := by
      intro heq
      apply hm
      have : a - b = (⌊(a - b) / c⌋ : ℚ) * c := by
        field_simp at heq
        linarith [heq]
      exact (pyFmod_eq_zero_iff (ne_of_gt hc)).mpr ⟨⌊(a - b) / c⌋, this⟩
    have hlt : ((⌊(a - b) / c⌋ : ℤ) : ℚ) < (a - b) / c :=
      lt_of_le_of_ne (Int.floor_le _) (Ne.symm hne)
    have h1 : ⌊(a - b) / c⌋ + 1 ≤ ⌈(a - b) / c⌉ := Int.add_one_le_ceil_iff.mpr hlt
    have h2 : ⌈(a - b) / c⌉ ≤ ⌊(a - b) / c⌋ + 1 := Int.ceil_le_floor_add_one _
    omega

lemma one_le_get_num_cells {a b c : ℚ} (hr : 0 < a - b) (hc : 0 < c) :
    1 ≤ get_num_cells a b c := by
  rw [get_num_cells_eq_ceil hr hc]
  exact Int.ceil_pos.mpr (div_pos hr hc)

lemma le_get_num_cells_mul {a b c : ℚ} (hr : 0 < a - b) (hc : 0 < c) :
    a - b ≤ get_num_cells a b c * c := by
  rw [get_num_cells_eq_ceil hr hc]
  rw [← div_le_iff₀ hc]
  exact Int.le_ceil _

end NumericLemmas

section Characterizations

lemma is_subset_iff {a b : Envelope} :
    a.is_subset b = true ↔
      b.x_min ≤ a.x_min ∧ a.x_max ≤ b.x_max ∧ b.y_min ≤ a.y_min ∧ a.y_max ≤ b.y_max := by
  simp [Envelope.is_subset, not_lt, and_assoc]

lemma is_superset_iff {a b : Envelope} :
    a.is_superset b = true ↔
      a.x_min ≤ b.x_min ∧ b.x_max ≤ a.x_max ∧ a.y_min ≤ b.y_min ∧ b.y_max ≤ a.y_max := by
  simp [Envelope.is_superset, not_lt, and_assoc]

lemma is_disjoint_eq_false_iff {a b : Envelope} :
    a.is_disjoint b = false ↔
      a.x_min ≤ b.x_max ∧ b.x_min ≤ a.x_max ∧ a.y_min ≤ b.y_max ∧ b.y_min ≤ a.y_max := by
  simp [Envelope.is_disjoint, not_lt, and_assoc]

lemma is_snapped_iff {a b : RasterEnvelope} :
    a.is_snapped b = true ↔
      a.cell_size = b.cell_size ∧ pyFmod (a.x_min - b.x_min) a.cell_size = 0 ∧
        pyFmod (a.y_max - b.y_max) a.cell_size = 0 := by
  simp [RasterEnvelope.is_snapped, and_assoc]

lemma is_snapped_symm {a b : RasterEnvelope} (hc : a.cell_size ≠ 0)
    (h : a.is_snapped b = true) : b.is_snapped a = true := by
  rw [is_snapped_iff] at h ⊢
  obtain ⟨hcell, hx, hy⟩ := h
  rw [← hcell]
  refine ⟨rfl, ?_, ?_⟩
  · obtain ⟨k, hk⟩ := (pyFmod_eq_zero_iff hc).mp hx
    exact (pyFmod_eq_zero_iff hc).mpr ⟨-k, by push_cast; linarith [hk]⟩
  · obtain ⟨k, hk⟩ := (pyFmod_eq_zero_iff hc).mp hy
    exact (pyFmod_eq_zero_iff hc).mpr ⟨-k, by push_cast; linarith [hk]⟩

lemma is_snapped_subset_iff {a b : RasterEnvelope} :
    a.is_snapped_subset b = true ↔
      a.is_snapped b = true ∧ a.toEnvelope.is_subset b.toEnvelope = true := by
  simp [RasterEnvelope.is_snapped_subset]

lemma is_snapped_superset_iff {a b : RasterEnvelope} :
    a.is_snapped_superset b = true ↔
      a.is_snapped b = true ∧ a.toEnvelope.is_superset b.toEnvelope = true := by
  simp [RasterEnvelope.is_snapped_superset]

lemma WF_sizes {r : RasterEnvelope} (h : WF r) : 1 ≤ r.x_size ∧ 1 ≤ r.y_size := by
  obtain ⟨hc, hx, hy, hxs, hys⟩ := h
  constructor
  · by_contra hlt
    push_neg at hlt
    have : (r.x_size : ℚ) ≤ 0 := by exact_mod_cast Int.lt_add_one_iff.mp hlt
    nlinarith
  · by_contra hlt
    push_neg at hlt
    have : (r.y_size : ℚ) ≤ 0 := by exact_mod_cast Int.lt_add_one_iff.mp hlt
    nlinarith

end Characterizations

section ConstructorLemmas

lemma except_bind_ok {α β γ : Type} {e : Except γ α} {f : α → Except γ β} {b : β}
    (h : e.bind f = .ok b) : ∃ a, e = .ok a ∧ f a = .ok b := by
  cases e with
  | error err => simp [Except.bind] at h
  | ok a => exact ⟨a, rfl, by simpa [Except.bind] using h⟩

lemma mkRasterEnvelope_ok {x_min y_min x_max y_max c : ℚ}
    (hx : x_min < x_max) (hy : y_min < y_max) :
    mkRasterEnvelope x_min y_min x_max y_max c =
      .ok ⟨x_min, y_max - get_num_cells y_max y_min c * c,
        x_min + get_num_cells x_max x_min c * c, y_max, c,
        get_num_cells x_max x_min c, get_num_cells y_max y_min c⟩ := by
  simp [mkRasterEnvelope, mkEnvelope, calculate_snapped_window, hx, hy, Except.bind]

lemma mkRasterEnvelope_err {x_min y_min x_max y_max c : ℚ}
    (h : ¬(x_min < x_max ∧ y_min < y_max)) :
    mkRasterEnvelope x_min y_min x_max y_max c = .error .invalidEnvelope := by
  simp [mkRasterEnvelope, mkEnvelope, h, Except.bind]

lemma mkRasterEnvelope_ok_inv {x_min y_min x_max y_max c : ℚ} {r : RasterEnvelope}
    (h : mkRasterEnvelope x_min y_min x_max y_max c = .ok r) :
    x_min < x_max ∧ y_min < y_max ∧
      r = ⟨x_min, y_max - get_num_cells y_max y_min c * c,
        x_min + get_num_cells x_max x_min c * c, y_max, c,
        get_num_cells x_max x_min c, get_num_cells y_max y_min c⟩ := by
  by_cases hv : x_min < x_max ∧ y_min < y_max
  · obtain ⟨hx, hy⟩ := hv
    rw [mkRasterEnvelope_ok hx hy] at h
    exact ⟨hx, hy, (Except.ok.injEq _ _ ▸ h).symm ▸ rfl⟩
  · rw [mkRasterEnvelope_err hv] at h
    cases h

lemma mkRasterEnvelope_ok_WF {x_min y_min x_max y_max c : ℚ} {r : RasterEnvelope}
    (hc : 0 < c) (h : mkRasterEnvelope x_min y_min x_max y_max c = .ok r) : WF r := by
  obtain ⟨hx, hy, rfl⟩ := mkRasterEnvelope_ok_inv h
  have hxs : 1 ≤ get_num_cells x_max x_min c := one_le_get_num_cells (by linarith) hc
  have hys : 1 ≤ get_num_cells y_max y_min c := one_le_get_num_cells (by linarith) hc
  have hxq : (1 : ℚ) ≤ (get_num_cells x_max x_min c : ℚ) := by exact_mod_cast hxs
  have hyq : (1 : ℚ) ≤ (get_num_cells y_max y_min c : ℚ) := by exact_mod_cast hys
  refine ⟨hc, ?_, ?_, by ring, by ring⟩
  · simpa using by nlinarith
  · simpa using by nlinarith

lemma get_minimum_bounding_envelope_ok_WF {bound : Envelope} {snap : RasterEnvelope}
    {r : RasterEnvelope} (hc : 0 < snap.cell_size)
    (h : get_minimum_bounding_envelope bound snap = .ok r) : WF r := by
  unfold get_minimum_bounding_envelope at h
  by_cases hd : bound.is_disjoint snap.toEnvelope
  · rw [if_pos hd] at h
    cases h
  · rw [if_neg hd] at h
    exact mkRasterEnvelope_ok_WF hc h

end ConstructorLemmas

/-- Claim C4: for valid inputs with positive cell size, construction keeps
the upper-left anchor `(x_min, y_max)` exactly, recomputes
`x_max = x_min + x_size * cell_size` and `y_min = y_max - y_size * cell_size`,
never shrinks the window (`x_max` only grows, `y_min` only drops), and the
stored extent is an exact multiple of the cell size in each dimension. -/
theorem mkRasterEnvelope_self_snap {x_min y_min x_max y_max c : ℚ}
    (hx : x_min < x_max) (hy : y_min < y_max) (hc : 0 < c) :
    ∃ r : RasterEnvelope, mkRasterEnvelope x_min y_min x_max y_max c = .ok r ∧
      r.x_min = x_min ∧ r.y_max = y_max ∧ r.cell_size = c ∧
      r.x_max = x_min + r.x_size * c ∧ r.y_min = y_max - r.y_size * c ∧
      x_max ≤ r.x_max ∧ r.y_min ≤ y_min ∧
      r.x_max - r.x_min = r.x_size * c ∧ r.y_max - r.y_min = r.y_size * c := by
  refine ⟨_, mkRasterEnvelope_ok hx hy, rfl, rfl, rfl, by push_cast; ring,
    by push_cast; ring, ?_, ?_, by push_cast; ring, by push_cast; ring⟩
  · have := le_get_num_cells_mul (a := x_max) (b := x_min) (c := c) (by linarith) hc
    simpa using by linarith
  · have := le_get_num_cells_mul (a := y_max) (b := y_min) (c := c) (by linarith) hc
    simpa using by linarith

/-- Witness for C4 at the spec's own example `(0, 0.3, 9.6, 10, cell 1)`. -/
theorem mkRasterEnvelope_self_snap_witness :
    ∃ r : RasterEnvelope, mkRasterEnvelope 0 (3/10) (48/5) 10 1 = .ok r ∧
      r.x_min = 0 ∧ r.y_max = 10 ∧ r.cell_size = 1 ∧
      r.x_max = 0 + r.x_size * 1 ∧ r.y_min = 10 - r.y_size * 1 ∧
      (48/5 : ℚ) ≤ r.x_max ∧ r.y_min ≤ 3/10 ∧
      r.x_max - r.x_min = r.x_size * 1 ∧ r.y_max - r.y_min = r.y_size * 1 :=
  mkRasterEnvelope_self_snap (by norm_num) (by norm_num) (by norm_num)

/-- Claim C5: for a positive coordinate range and positive cell size,
`get_num_cells` returns exactly the ceiling of range over cell size, and
its exact remainder test recognises exact multiples precisely (never
misclassifies one). -/
theorem get_num_cells_is_ceil {coord_max coord_min cell_size : ℚ}
    (hr : 0 < coord_max - coord_min) (hc : 0 < cell_size) :
    get_num_cells coord_max coord_min cell_size =
        ⌈(coord_max - coord_min) / cell_size⌉ ∧
      (pyFmod (coord_max - coord_min) cell_size = 0 ↔
        ∃ k : ℤ, coord_max - coord_min = k * cell_size) :=
  ⟨get_num_cells_eq_ceil hr hc, pyFmod_eq_zero_iff (ne_of_gt hc)⟩

/-- Witness for C5 at range 10, cell size 3 (four cells). -/
theorem get_num_cells_is_ceil_witness :
    get_num_cells 10 0 3 = ⌈((10 : ℚ) - 0) / 3⌉ ∧
      (pyFmod ((10 : ℚ) - 0) 3 = 0 ↔ ∃ k : ℤ, (10 : ℚ) - 0 = k * 3) :=
  get_num_cells_is_ceil (by norm_num) (by norm_num)

/-- Claim C9: on a single-element sequence (`re_rest = []`) both reducers
return the element unchanged, whatever reference grid is supplied: the
fold body is never entered. -/
theorem min_of_max_of_singleton (e : RasterEnvelope) (snap_opt : Option RasterEnvelope) :
    min_of e [] snap_opt = .ok e ∧ max_of e [] snap_opt = .ok e := by
  constructor <;> rfl

/-- Claim C3: on overlapping inputs, `get_minimum_bounding_envelope`
returns a raster envelope with the reference's cell size that contains the
bound, whose upper-left corner offsets from the reference are exact integer
multiples of the cell size, and which is least among all envelopes aligned
to the reference grid that contain the bound. -/
theorem get_minimum_bounding_envelope_minimal
    {bound : Envelope} {snap : RasterEnvelope}
    (hbx : bound.x_min < bound.x_max) (hby : bound.y_min < bound.y_max)
    (hc : 0 < snap.cell_size)
    (hnd : bound.is_disjoint snap.toEnvelope = false) :
    ∃ r : RasterEnvelope, get_minimum_bounding_envelope bound snap = .ok r ∧
      r.cell_size = snap.cell_size ∧
      (r.x_min ≤ bound.x_min ∧ r.y_min ≤ bound.y_min ∧
        bound.x_max ≤ r.x_max ∧ bound.y_max ≤ r.y_max) ∧
      (∃ i : ℤ, r.x_min - snap.x_min = i * snap.cell_size) ∧
      (∃ j : ℤ, r.y_max - snap.y_max = j * snap.cell_size) ∧
      (∀ s : Envelope,
        (∃ i : ℤ, s.x_min = snap.x_min + i * snap.cell_size) →
        (∃ j : ℤ, s.y_max = snap.y_max - j * snap.cell_size) →
        (∃ m : ℤ, s.x_max = s.x_min + m * snap.cell_size) →
        (∃ n : ℤ, s.y_min = s.y_max - n * snap.cell_size) →
        s.x_min ≤ bound.x_min → bound.x_max ≤ s.x_max →
        s.y_min ≤ bound.y_min → bound.y_max ≤ s.y_max →
        s.x_min ≤ r.x_min ∧ s.y_min ≤ r.y_min ∧
          r.x_max ≤ s.x_max ∧ r.y_max ≤ s.y_max) := by
  set c := snap.cell_size with hc_def
  set xo : ℤ := ⌊(bound.x_min - snap.x_min) / c⌋ with hxo_def
  set yo : ℤ := ⌊(snap.y_max - bound.y_max) / c⌋ with hyo_def
  set X0 : ℚ := snap.x_min + xo * c with hX0_def
  set Y0 : ℚ := snap.y_max - yo * c with hY0_def
  have hX0 : X0 ≤ bound.x_min := by
    have h1 : (xo : ℚ) ≤ (bound.x_min - snap.x_min) / c := Int.floor_le _
    have h2 : (xo : ℚ) * c ≤ bound.x_min - snap.x_min := (le_div_iff₀ hc).mp h1
    simp only [hX0_def]
    linarith
  have hY0 : bound.y_max ≤ Y0 := by
    have h1 : (yo : ℚ) ≤ (snap.y_max - bound.y_max) / c := Int.floor_le _
    have h2 : (yo : ℚ) * c ≤ snap.y_max - bound.y_max := (le_div_iff₀ hc).mp h1
    simp only [hY0_def]
    linarith
  have hvx : X0 < bound.x_max := lt_of_le_of_lt hX0 hbx
  have hvy : bound.y_min < Y0 := lt_of_lt_of_le hby hY0
  have hmbe : get_minimum_bounding_envelope bound snap =
      mkRasterEnvelope X0 bound.y_min bound.x_max Y0 c := by
    simp only [get_minimum_bounding_envelope, hnd, Bool.false_eq_true, if_false,
      RasterEnvelope.get_offset_from_xy, hX0_def, hY0_def, hxo_def, hyo_def, hc_def]
  set xs : ℤ := get_num_cells bound.x_max X0 c with hxs_def
  set ys : ℤ := get_num_cells Y0 bound.y_min c with hys_def
  have hxs_ceil : xs = ⌈(bound.x_max - X0) / c⌉ :=
    get_num_cells_eq_ceil (by linarith) hc
  have hys_ceil : ys = ⌈(Y0 - bound.y_min) / c⌉ :=
    get_num_cells_eq_ceil (by linarith) hc
  have hxs_cover : bound.x_max - X0 ≤ (xs : ℚ) * c :=
    le_get_num_cells_mul (by linarith) hc
  have hys_cover : Y0 - bound.y_min ≤ (ys : ℚ) * c :=
    le_get_num_cells_mul (by linarith) hc
  refine ⟨⟨X0, Y0 - ys * c, X0 + xs * c, Y0, c, xs, ys⟩,
    by rw [hmbe]; exact mkRasterEnvelope_ok hvx hvy,
    rfl,
    ⟨hX0, by simpa using by linarith, by simpa using by linarith, hY0⟩,
    ⟨xo, by simp only [hX0_def]; ring⟩,
    ⟨-yo, by simp only [hY0_def]; push_cast; ring⟩,
    ?_⟩
  rintro s ⟨i, hi⟩ ⟨j, hj⟩ ⟨m, hm⟩ ⟨n, hn⟩ h1 h2 h3 h4
  have hi_le : i ≤ xo := by
    rw [hxo_def]
    rw [Int.le_floor]
    rw [le_div_iff₀ hc]
    rw [hi] at h1
    linarith
  have hj_le : j ≤ yo := by
    rw [hyo_def]
    rw [Int.le_floor]
    rw [le_div_iff₀ hc]
    rw [hj] at h4
    linarith
  have hx_total : xo + xs = ⌈(bound.x_max - snap.x_min) / c⌉ := by
    have hdiv : (bound.x_max - X0) / c = (bound.x_max - snap.x_min) / c - (xo : ℚ) := by
      simp only [hX0_def]
      field_simp
      ring
    rw [hxs_ceil, hdiv, Int.ceil_sub_int]
    ring
  have hy_total : yo + ys = ⌈(snap.y_max - bound.y_min) / c⌉ := by
    have hdiv : (Y0 - bound.y_min) / c = (snap.y_max - bound.y_min) / c - (yo : ℚ) := by
      simp only [hY0_def]
      field_simp
      ring
    rw [hys_ceil, hdiv, Int.ceil_sub_int]
    ring
  have hxm : xo + xs ≤ i + m := by
    rw [hx_total]
    rw [Int.ceil_le]
    rw [div_le_iff₀ hc]
    rw [hm, hi] at h2
    push_cast
    linarith
  have hyn : yo + ys ≤ j + n := by
    rw [hy_total]
    rw [Int.ceil_le]
    rw [div_le_iff₀ hc]
    rw [hn, hj] at h3
    push_cast
    linarith
  have cast_mul_le : ∀ p q : ℤ, p ≤ q → (p : ℚ) * c ≤ (q : ℚ) * c := fun p q hpq =>
    mul_le_mul_of_nonneg_right (by exact_mod_cast hpq) hc.le
  refine ⟨?_, ?_, ?_, ?_⟩
  · rw [hi]
    simp only [hX0_def]
    have := cast_mul_le i xo hi_le
    linarith
  · rw [hn, hj]
    simp only
    have := cast_mul_le (yo + ys) (j + n) hyn
    simp only [hY0_def]
    push_cast at this ⊢
    linarith
  · rw [hm, hi]
    simp only
    have := cast_mul_le (xo + xs) (i + m) hxm
    simp only [hX0_def]
    push_cast at this ⊢
    linarith
  · rw [hj]
    simp only [hY0_def]
    have := cast_mul_le j yo hj_le
    linarith

/-- Witness for C3: bound (1.5, 1.5, 3.5, 3.5) against the unit grid
anchored at (0, 10). -/
theorem get_minimum_bounding_envelope_minimal_witness :
    ∃ r : RasterEnvelope,
      get_minimum_bounding_envelope ⟨3/2, 3/2, 7/2, 7/2⟩ ⟨0, 0, 10, 10, 1, 10, 10⟩ = .ok r ∧
      r.cell_size = (1 : ℚ) ∧
      (r.x_min ≤ 3/2 ∧ r.y_min ≤ 3/2 ∧ (7/2 : ℚ) ≤ r.x_max ∧ (7/2 : ℚ) ≤ r.y_max) ∧
      (∃ i : ℤ, r.x_min - 0 = i * 1) ∧
      (∃ j : ℤ, r.y_max - 10 = j * 1) ∧
      (∀ s : Envelope,
        (∃ i : ℤ, s.x_min = 0 + i * 1) →
        (∃ j : ℤ, s.y_max = 10 - j * 1) →
        (∃ m : ℤ, s.x_max = s.x_min + m * 1) →
        (∃ n : ℤ, s.y_min = s.y_max - n * 1) →
        s.x_min ≤ 3/2 → (7/2 : ℚ) ≤ s.x_max →
        s.y_min ≤ 3/2 → (7/2 : ℚ) ≤ s.y_max →
        s.x_min ≤ r.x_min ∧ s.y_min ≤ r.y_min ∧
          r.x_max ≤ s.x_max ∧ r.y_max ≤ s.y_max) :=
  get_minimum_bounding_envelope_minimal (by norm_num) (by norm_num) (by norm_num)
    (by norm_num [Envelope.is_disjoint, RasterEnvelope.toEnvelope])

/-- Claim C1 (code bug in the source): `RasterEnvelope.__eq__` compares
`x_min` three times (envelope.py lines 219, 223, 225) and never compares
`x_max` or `y_max`.  Failing input: A = RasterEnvelope(0, 0, 100, 100, 1)
against B = RasterEnvelope(0, 0, 100.000005, 100.000005, 1.00000005),
written below with those decimal literals as exact rationals
(100.000005 = 20000001/200000, 1.00000005 = 20000001/20000000).
B's cell size differs from A's by 5e-8 — half the 1e-7 tolerance — and is
amplified by the 100 cells into `x_max` and `y_max` differences of 5e-6,
fifty times the tolerance; since those two fields are the very ones the
method forgot to compare, `__eq__` returns True while the claim's seven
comparisons (`eq_spec`) return False.  Every comparison here is decided
with margin at least 5e-8, while the IEEE-double run of the source on the
same literals matches these rational values to within about 1.5e-14
(the Decimal cell-count division 100.000005 / 1.00000005 = 100 is exact in
both worlds), so the double-precision program reaches the same verdicts:
real `__eq__` gives True, the claimed comparison gives False. -/
theorem eq_skips_x_max_y_max :
    mkRasterEnvelope 0 0 100 100 1 = .ok ⟨0, 0, 100, 100, 1, 100, 100⟩ ∧
    mkRasterEnvelope 0 0 (20000001/200000) (20000001/200000) (20000001/20000000) =
      .ok ⟨0, 0, 20000001/200000, 20000001/200000, 20000001/20000000, 100, 100⟩ ∧
    RasterEnvelope.eq ⟨0, 0, 100, 100, 1, 100, 100⟩
      ⟨0, 0, 20000001/200000, 20000001/200000, 20000001/20000000, 100, 100⟩ = true ∧
    RasterEnvelope.eq_spec ⟨0, 0, 100, 100, 1, 100, 100⟩
      ⟨0, 0, 20000001/200000, 20000001/200000, 20000001/20000000, 100, 100⟩ = false := by
  refine ⟨?_, ?_, ?_, ?_⟩
  · norm_num [mkRasterEnvelope, mkEnvelope, calculate_snapped_window, get_num_cells,
      ratTrunc, pyFmod, Except.bind]
  · norm_num [mkRasterEnvelope, mkEnvelope, calculate_snapped_window, get_num_cells,
      ratTrunc, pyFmod, Except.bind]
  · norm_num [RasterEnvelope.eq, PRECISION]
    rw [abs_of_nonneg (by norm_num : (0 : ℚ) ≤ 1/20000000)]
    norm_num
  · norm_num [RasterEnvelope.eq_spec, PRECISION]
    intro h1
    exfalso
    rw [abs_of_nonneg (by norm_num : (0 : ℚ) ≤ 1/200000)] at h1
    norm_num at h1

section ContainmentHelpers

lemma snapped_mutual_subset_eq {a b : RasterEnvelope} (ha : WF a) (hb : WF b)
    (hsnap : a.is_snapped b = true)
    (hsub : a.toEnvelope.is_subset b.toEnvelope = true)
    (hsub2 : b.toEnvelope.is_subset a.toEnvelope = true) : a = b := by
  rw [is_subset_iff] at hsub hsub2
  have hcell : a.cell_size = b.cell_size := (is_snapped_iff.mp hsnap).1
  have hx1 : a.x_min = b.x_min :=
    le_antisymm (by simpa [RasterEnvelope.toEnvelope] using hsub2.1)
      (by simpa [RasterEnvelope.toEnvelope] using hsub.1)
  have hx2 : a.x_max = b.x_max :=
    le_antisymm (by simpa [RasterEnvelope.toEnvelope] using hsub.2.1)
      (by simpa [RasterEnvelope.toEnvelope] using hsub2.2.1)
  have hy1 : a.y_min = b.y_min :=
    le_antisymm (by simpa [RasterEnvelope.toEnvelope] using hsub2.2.2.1)
      (by simpa [RasterEnvelope.toEnvelope] using hsub.2.2.1)
  have hy2 : a.y_max = b.y_max :=
    le_antisymm (by simpa [RasterEnvelope.toEnvelope] using hsub.2.2.2)
      (by simpa [RasterEnvelope.toEnvelope] using hsub2.2.2.2)
  have hcne : a.cell_size ≠ 0 := ne_of_gt ha.1
  have hxs : a.x_size = b.x_size := by
    have h1 := ha.2.2.2.1
    have h2 := hb.2.2.2.1
    rw [← hx1, ← hx2, ← hcell] at h2
    have : (a.x_size : ℚ) * a.cell_size = (b.x_size : ℚ) * a.cell_size := by
      rw [← h1, ← h2]
    exact_mod_cast mul_right_cancel₀ hcne this
  have hys : a.y_size = b.y_size := by
    have h1 := ha.2.2.2.2
    have h2 := hb.2.2.2.2
    rw [← hy1, ← hy2, ← hcell] at h2
    have : (a.y_size : ℚ) * a.cell_size = (b.y_size : ℚ) * a.cell_size := by
      rw [← h1, ← h2]
    exact_mod_cast mul_right_cancel₀ hcne this
  cases a
  cases b
  simp only [RasterEnvelope.mk.injEq]
  exact ⟨hx1, hy1, hx2, hy2, hcell, hxs, hys⟩

lemma superset_of_subset {a b : Envelope} (h : a.is_subset b = true) :
    b.is_superset a = true := by
  rw [is_subset_iff] at h
  rw [is_superset_iff]
  exact ⟨h.1, h.2.1, h.2.2.1, h.2.2.2⟩

end ContainmentHelpers

/-- Claim C6: when `sub` is a snapped subset of `sup`, union returns the
superset unchanged and intersection returns the subset unchanged, from
either side and for both values of the `snap_this` flag. -/
theorem snapped_containment_short_circuit {sub sup : RasterEnvelope}
    (hsubWF : WF sub) (hsupWF : WF sup)
    (h : sub.is_snapped_subset sup = true) (flag : Bool) :
    sub.union sup flag = .ok sup ∧ sub.intersection sup flag = .ok sub ∧
      sup.union sub flag = .ok sup ∧ sup.intersection sub flag = .ok sub := by
  obtain ⟨hsnap, hsubE⟩ := is_snapped_subset_iff.mp h
  have hcne : sub.cell_size ≠ 0 := ne_of_gt hsubWF.1
  have hsnap2 : sup.is_snapped sub = true := is_snapped_symm hcne hsnap
  have hsupE : sup.toEnvelope.is_superset sub.toEnvelope = true := superset_of_subset hsubE
  have hsupss : sup.is_snapped_superset sub = true :=
    is_snapped_superset_iff.mpr ⟨hsnap2, hsupE⟩
  refine ⟨?_, ?_, ?_, ?_⟩
  · simp [RasterEnvelope.union, h]
  · simp [RasterEnvelope.intersection, h]
  · by_cases h2 : sup.is_snapped_subset sub = true
    · have heq : sub = sup :=
        snapped_mutual_subset_eq hsubWF hsupWF hsnap hsubE
          (is_snapped_subset_iff.mp h2).2
      subst heq
      simp [RasterEnvelope.union, h2]
    · simp [RasterEnvelope.union, h2, hsupss]
  · by_cases h2 : sup.is_snapped_subset sub = true
    · have heq : sub = sup :=
        snapped_mutual_subset_eq hsubWF hsupWF hsnap hsubE
          (is_snapped_subset_iff.mp h2).2
      subst heq
      simp [RasterEnvelope.intersection, h2]
    · simp [RasterEnvelope.intersection, h2, hsupss]

/-- Witness for C6: the spec's snapped-subset example, grids (1,1,9,9) and
(0,0,10,10) with unit cells, flag true. -/
theorem snapped_containment_short_circuit_witness :
    RasterEnvelope.union ⟨1, 1, 9, 9, 1, 8, 8⟩ ⟨0, 0, 10, 10, 1, 10, 10⟩ true =
        .ok ⟨0, 0, 10, 10, 1, 10, 10⟩ ∧
      RasterEnvelope.intersection ⟨1, 1, 9, 9, 1, 8, 8⟩ ⟨0, 0, 10, 10, 1, 10, 10⟩ true =
        .ok ⟨1, 1, 9, 9, 1, 8, 8⟩ ∧
      RasterEnvelope.union ⟨0, 0, 10, 10, 1, 10, 10⟩ ⟨1, 1, 9, 9, 1, 8, 8⟩ true =
        .ok ⟨0, 0, 10, 10, 1, 10, 10⟩ ∧
      RasterEnvelope.intersection ⟨0, 0, 10, 10, 1, 10, 10⟩ ⟨1, 1, 9, 9, 1, 8, 8⟩ true =
        .ok ⟨1, 1, 9, 9, 1, 8, 8⟩ :=
  snapped_containment_short_circuit (by norm_num [WF]) (by norm_num [WF])
    (by norm_num [RasterEnvelope.is_snapped_subset, RasterEnvelope.is_snapped,
      Envelope.is_subset, RasterEnvelope.toEnvelope, pyFmod, ratTrunc]) true

/-- Claim C7: `get_xy_from_offset` then `get_offset_from_xy` is the
identity on any in-range cell offset, and for a coordinate inside the
envelope the composed map the other way around lands on the upper-left
corner of the cell containing it: the corner is at most one cell size away
on each axis, at or above and at or left of the point. -/
theorem offset_xy_inverse (r : RasterEnvelope) (hc : 0 < r.cell_size) :
    (∀ col row : ℤ, 0 ≤ col → col < r.x_size → 0 ≤ row → row < r.y_size →
      r.get_offset_from_xy (r.get_xy_from_offset col row).1
        (r.get_xy_from_offset col row).2 = (col, row)) ∧
    (∀ x y : ℚ, r.x_min ≤ x → x < r.x_max → r.y_min < y → y ≤ r.y_max →
      (r.get_xy_from_offset (r.get_offset_from_xy x y).1
          (r.get_offset_from_xy x y).2).1 ≤ x ∧
      x < (r.get_xy_from_offset (r.get_offset_from_xy x y).1
          (r.get_offset_from_xy x y).2).1 + r.cell_size ∧
      y ≤ (r.get_xy_from_offset (r.get_offset_from_xy x y).1
          (r.get_offset_from_xy x y).2).2 ∧
      (r.get_xy_from_offset (r.get_offset_from_xy x y).1
          (r.get_offset_from_xy x y).2).2 - r.cell_size < y) := by
  have hcne : r.cell_size ≠ 0 := ne_of_gt hc
  constructor
  · intro col row _ _ _ _
    simp only [RasterEnvelope.get_xy_from_offset, RasterEnvelope.get_offset_from_xy]
    rw [add_sub_cancel_left, mul_div_cancel_right₀ _ hcne, Int.floor_intCast,
      sub_sub_cancel, mul_div_cancel_right₀ _ hcne, Int.floor_intCast]
  · intro x y _ _ _ _
    simp only [RasterEnvelope.get_xy_from_offset, RasterEnvelope.get_offset_from_xy]
    have hxf : (⌊(x - r.x_min) / r.cell_size⌋ : ℚ) ≤ (x - r.x_min) / r.cell_size :=
      Int.floor_le _
    have hxf2 : (x - r.x_min) / r.cell_size < ⌊(x - r.x_min) / r.cell_size⌋ + 1 :=
      Int.lt_floor_add_one _
    have hyf : (⌊(r.y_max - y) / r.cell_size⌋ : ℚ) ≤ (r.y_max - y) / r.cell_size :=
      Int.floor_le _
    have hyf2 : (r.y_max - y) / r.cell_size < ⌊(r.y_max - y) / r.cell_size⌋ + 1 :=
      Int.lt_floor_add_one _
    have h1 : (⌊(x - r.x_min) / r.cell_size⌋ : ℚ) * r.cell_size ≤ x - r.x_min :=
      (le_div_iff₀ hc).mp hxf
    have h2 : x - r.x_min < ((⌊(x - r.x_min) / r.cell_size⌋ : ℚ) + 1) * r.cell_size := by
      rw [← div_lt_iff₀ hc]
      exact_mod_cast hxf2
    have h3 : (⌊(r.y_max - y) / r.cell_size⌋ : ℚ) * r.cell_size ≤ r.y_max - y :=
      (le_div_iff₀ hc).mp hyf
    have h4 : r.y_max - y < ((⌊(r.y_max - y) / r.cell_size⌋ : ℚ) + 1) * r.cell_size := by
      rw [← div_lt_iff₀ hc]
      exact_mod_cast hyf2
    refine ⟨by linarith, by nlinarith, by linarith, by nlinarith⟩

/-- Witness for C7: the unit grid over (0,0,10,10), offset (2,3) and the
spec's sample point (0.3, 9.5). -/
theorem offset_xy_inverse_witness :
    RasterEnvelope.get_offset_from_xy ⟨0, 0, 10, 10, 1, 10, 10⟩
        (RasterEnvelope.get_xy_from_offset ⟨0, 0, 10, 10, 1, 10, 10⟩ 2 3).1
        (RasterEnvelope.get_xy_from_offset ⟨0, 0, 10, 10, 1, 10, 10⟩ 2 3).2 = (2, 3) ∧
      (RasterEnvelope.get_xy_from_offset ⟨0, 0, 10, 10, 1, 10, 10⟩
          (RasterEnvelope.get_offset_from_xy ⟨0, 0, 10, 10, 1, 10, 10⟩ (3/10) (19/2)).1
          (RasterEnvelope.get_offset_from_xy ⟨0, 0, 10, 10, 1, 10, 10⟩ (3/10) (19/2)).2).1
        ≤ 3/10 := by
  have h := offset_xy_inverse ⟨0, 0, 10, 10, 1, 10, 10⟩ (by norm_num)
  exact ⟨h.1 2 3 (by norm_num) (by norm_num) (by norm_num) (by norm_num),
    (h.2 (3/10) (19/2) (by norm_num) (by norm_num) (by norm_num) (by norm_num)).1⟩

section FoldLemmas

lemma except_bind_assoc {α β γ δ : Type} (e : Except δ α) (f : α → Except δ β)
    (g : β → Except δ γ) :
    (e.bind f).bind g = e.bind fun a => (f a).bind g := by
  cases e <;> rfl

lemma min_of_fold_eq_amended (snap_re : RasterEnvelope) (rest : List RasterEnvelope) :
    ∀ acc : RasterEnvelope,
      rest.foldlM
          (fun min_re re =>
            (min_re.intersection re true).bind fun env =>
              get_minimum_bounding_envelope env.toEnvelope snap_re)
          acc =
        min_of_spec_amended snap_re acc rest := by
  induction rest with
  | nil => intro acc; rfl
  | cons x xs ih =>
    intro acc
    cases h : acc.intersection x true with
    | error e =>
      simp only [List.foldlM_cons, h, min_of_spec_amended, Except.bind]
      rfl
    | ok env =>
      cases h2 : get_minimum_bounding_envelope env.toEnvelope snap_re with
      | error e =>
        simp only [List.foldlM_cons, h, h2, min_of_spec_amended, Except.bind]
        rfl
      | ok acc2 =>
        simp only [List.foldlM_cons, h, h2, min_of_spec_amended, Except.bind]
        exact ih acc2

lemma max_of_fold_eq_amended (snap_re : RasterEnvelope) (rest : List RasterEnvelope) :
    ∀ acc : RasterEnvelope,
      rest.foldlM
          (fun max_re re =>
            (max_re.union re true).bind fun env =>
              get_minimum_bounding_envelope env.toEnvelope snap_re)
          acc =
        max_of_spec_amended snap_re acc rest := by
  induction rest with
  | nil => intro acc; rfl
  | cons x xs ih =>
    intro acc
    cases h : acc.union x true with
    | error e =>
      simp only [List.foldlM_cons, h, max_of_spec_amended, Except.bind]
      rfl
    | ok env =>
      cases h2 : get_minimum_bounding_envelope env.toEnvelope snap_re with
      | error e =>
        simp only [List.foldlM_cons, h, h2, max_of_spec_amended, Except.bind]
        rfl
      | ok acc2 =>
        simp only [List.foldlM_cons, h, h2, max_of_spec_amended, Except.bind]
        exact ih acc2

end FoldLemmas

/-- Claim C2 counterexample: with first element the unit grid anchored at
(0, 10), next element the unit grid (1.5, 1.5, 3.5, 3.5), and reference
grid anchored at (0.5, 10.5), the implemented `min_of` first snaps the
intersection to the running result's grid (policy 4.4) and only then to
the reference, giving (0.5, 0.5, 4.5, 4.5) with 4x4 cells — while the fold
the claim describes (plain intersection, then snap to the reference) gives
(1.5, 1.5, 3.5, 3.5) with 2x2 cells.  The two differ even under the
source's tolerant equality. -/
theorem min_of_differs_from_plain_fold :
    mkRasterEnvelope 0 0 10 10 1 = .ok ⟨0, 0, 10, 10, 1, 10, 10⟩ ∧
    mkRasterEnvelope (3/2) (3/2) (7/2) (7/2) 1 = .ok ⟨3/2, 3/2, 7/2, 7/2, 1, 2, 2⟩ ∧
    mkRasterEnvelope (1/2) (1/2) (21/2) (21/2) 1 = .ok ⟨1/2, 1/2, 21/2, 21/2, 1, 10, 10⟩ ∧
    min_of ⟨0, 0, 10, 10, 1, 10, 10⟩ [⟨3/2, 3/2, 7/2, 7/2, 1, 2, 2⟩]
        (some ⟨1/2, 1/2, 21/2, 21/2, 1, 10, 10⟩) = .ok ⟨1/2, 1/2, 9/2, 9/2, 1, 4, 4⟩ ∧
    min_of_spec_plain ⟨0, 0, 10, 10, 1, 10, 10⟩ [⟨3/2, 3/2, 7/2, 7/2, 1, 2, 2⟩]
        (some ⟨1/2, 1/2, 21/2, 21/2, 1, 10, 10⟩) = .ok ⟨3/2, 3/2, 7/2, 7/2, 1, 2, 2⟩ ∧
    RasterEnvelope.eq ⟨1/2, 1/2, 9/2, 9/2, 1, 4, 4⟩ ⟨3/2, 3/2, 7/2, 7/2, 1, 2, 2⟩ = false ∧
    (⟨1/2, 1/2, 9/2, 9/2, 1, 4, 4⟩ : RasterEnvelope) ≠ ⟨3/2, 3/2, 7/2, 7/2, 1, 2, 2⟩ := by
  have hstep1 : RasterEnvelope.intersection ⟨0, 0, 10, 10, 1, 10, 10⟩
      ⟨3/2, 3/2, 7/2, 7/2, 1, 2, 2⟩ true = .ok ⟨1, 1, 4, 4, 1, 3, 3⟩ := by
    norm_num [RasterEnvelope.intersection, RasterEnvelope.is_snapped_subset,
      RasterEnvelope.is_snapped_superset, RasterEnvelope.is_snapped,
      Envelope.is_subset, Envelope.is_superset, RasterEnvelope.toEnvelope,
      pyFmod, ratTrunc, get_minimum_bounding_envelope, Envelope.is_disjoint,
      RasterEnvelope.get_offset_from_xy, mkRasterEnvelope, mkEnvelope,
      calculate_snapped_window, get_num_cells, Except.bind]
  have hstep2 : get_minimum_bounding_envelope
      (RasterEnvelope.toEnvelope ⟨1, 1, 4, 4, 1, 3, 3⟩) ⟨1/2, 1/2, 21/2, 21/2, 1, 10, 10⟩ =
      .ok ⟨1/2, 1/2, 9/2, 9/2, 1, 4, 4⟩ := by
    norm_num [get_minimum_bounding_envelope, Envelope.is_disjoint,
      RasterEnvelope.toEnvelope, RasterEnvelope.get_offset_from_xy, mkRasterEnvelope,
      mkEnvelope, calculate_snapped_window, get_num_cells, ratTrunc, pyFmod, Except.bind]
  have hplain1 : Envelope.intersection (RasterEnvelope.toEnvelope ⟨0, 0, 10, 10, 1, 10, 10⟩)
      (RasterEnvelope.toEnvelope ⟨3/2, 3/2, 7/2, 7/2, 1, 2, 2⟩) =
      .ok ⟨3/2, 3/2, 7/2, 7/2⟩ := by
    norm_num [Envelope.intersection, mkEnvelope, RasterEnvelope.toEnvelope]
  have hplain2 : get_minimum_bounding_envelope (⟨3/2, 3/2, 7/2, 7/2⟩ : Envelope)
      ⟨1/2, 1/2, 21/2, 21/2, 1, 10, 10⟩ = .ok ⟨3/2, 3/2, 7/2, 7/2, 1, 2, 2⟩ := by
    norm_num [get_minimum_bounding_envelope, Envelope.is_disjoint,
      RasterEnvelope.toEnvelope, RasterEnvelope.get_offset_from_xy, mkRasterEnvelope,
      mkEnvelope, calculate_snapped_window, get_num_cells, ratTrunc, pyFmod, Except.bind]
  refine ⟨?_, ?_, ?_, ?_, ?_, ?_, ?_⟩
  · norm_num [mkRasterEnvelope, mkEnvelope, calculate_snapped_window, get_num_cells,
      ratTrunc, pyFmod, Except.bind]
  · norm_num [mkRasterEnvelope, mkEnvelope, calculate_snapped_window, get_num_cells,
      ratTrunc, pyFmod, Except.bind]
  · norm_num [mkRasterEnvelope, mkEnvelope, calculate_snapped_window, get_num_cells,
      ratTrunc, pyFmod, Except.bind]
  · simp only [min_of, Option.getD_some, List.foldlM_cons, List.foldlM_nil, hstep1,
      Except.bind, hstep2]
    rfl
  · simp only [min_of_spec_plain, Option.getD_some, List.foldlM_cons, List.foldlM_nil,
      hplain1, Except.bind, hplain2]
    rfl
  · norm_num [RasterEnvelope.eq]
  · simp only [ne_eq, RasterEnvelope.mk.injEq]
    norm_num

/-- Claim C2 amended: each fold step of `min_of` computes the
`RasterEnvelope.intersection` of the running result and the next element —
with its 4.4 alignment policy and its default `snap_to_self = true` — and
then re-snaps that already-aligned result to the reference grid; `max_of`
is the same fold with `RasterEnvelope.union`.  (The plain unaligned
`Envelope` operations of the original claim are not what the fold uses.) -/
theorem min_of_max_of_amended_fold (re0 : RasterEnvelope) (re_rest : List RasterEnvelope)
    (snap_opt : Option RasterEnvelope) :
    min_of re0 re_rest snap_opt = min_of_spec_amended (snap_opt.getD re0) re0 re_rest ∧
      max_of re0 re_rest snap_opt = max_of_spec_amended (snap_opt.getD re0) re0 re_rest :=
  ⟨min_of_fold_eq_amended (snap_opt.getD re0) re_rest re0,
    max_of_fold_eq_amended (snap_opt.getD re0) re_rest re0⟩

section DisjointHelpers

lemma plain_intersection_invalid_iff {a b : Envelope} :
    a.intersection b = .error .invalidEnvelope ↔
      ¬(max a.x_min b.x_min < min a.x_max b.x_max ∧
        max a.y_min b.y_min < min a.y_max b.y_max) := by
  unfold Envelope.intersection mkEnvelope
  by_cases hc : max a.x_min b.x_min < min a.x_max b.x_max ∧
      max a.y_min b.y_min < min a.y_max b.y_max
  · simp [hc]
  · simp [hc]

lemma not_contained_of_invalid {a b : Envelope}
    (hax : a.x_min < a.x_max) (hay : a.y_min < a.y_max)
    (hbx : b.x_min < b.x_max) (hby : b.y_min < b.y_max)
    (hinv : ¬(max a.x_min b.x_min < min a.x_max b.x_max ∧
      max a.y_min b.y_min < min a.y_max b.y_max)) :
    a.is_subset b = false ∧ a.is_superset b = false := by
  constructor
  · apply Bool.eq_false_iff.mpr
    intro h
    rw [is_subset_iff] at h
    refine hinv ⟨?_, ?_⟩
    · simp only [max_lt_iff, lt_min_iff]
      exact ⟨⟨hax, by linarith [h.2.1]⟩, by linarith [h.1], hbx⟩
    · simp only [max_lt_iff, lt_min_iff]
      exact ⟨⟨hay, by linarith [h.2.2.2]⟩, by linarith [h.2.2.1], hby⟩
  · apply Bool.eq_false_iff.mpr
    intro h
    rw [is_superset_iff] at h
    refine hinv ⟨?_, ?_⟩
    · simp only [max_lt_iff, lt_min_iff]
      exact ⟨⟨hax, by linarith [h.2.1]⟩, by linarith [h.1], hbx⟩
    · simp only [max_lt_iff, lt_min_iff]
      exact ⟨⟨hay, by linarith [h.2.2.2]⟩, by linarith [h.2.2.1], hby⟩

lemma raster_intersection_plain_invalid {self other : RasterEnvelope} (flag : Bool)
    (hsx : self.x_min < self.x_max) (hsy : self.y_min < self.y_max)
    (hox : other.x_min < other.x_max) (hoy : other.y_min < other.y_max)
    (hint : self.toEnvelope.intersection other.toEnvelope = .error .invalidEnvelope) :
    self.intersection other flag = .error .invalidEnvelope := by
  have hinv := plain_intersection_invalid_iff.mp hint
  obtain ⟨hns, hnsup⟩ :=
    not_contained_of_invalid (a := self.toEnvelope) (b := other.toEnvelope)
      hsx hsy hox hoy hinv
  simp only [RasterEnvelope.intersection, RasterEnvelope.is_snapped_subset,
    RasterEnvelope.is_snapped_superset, hns, hnsup, Bool.and_false,
    Bool.false_eq_true, if_false, hint]
  rfl

lemma mbe_disjoint_error {bound : Envelope} {snap : RasterEnvelope}
    (hd : bound.is_disjoint snap.toEnvelope = true) :
    get_minimum_bounding_envelope bound snap = .error .disjointEnvelopes := by
  simp [get_minimum_bounding_envelope, hd]

lemma min_of_plain_invalid {a b : RasterEnvelope} {rest : List RasterEnvelope}
    {snap_opt : Option RasterEnvelope}
    (hax : a.x_min < a.x_max) (hay : a.y_min < a.y_max)
    (hbx : b.x_min < b.x_max) (hby : b.y_min < b.y_max)
    (hint : a.toEnvelope.intersection b.toEnvelope = .error .invalidEnvelope) :
    min_of a (b :: rest) snap_opt = .error .invalidEnvelope := by
  have h1 := raster_intersection_plain_invalid true hax hay hbx hby hint
  simp only [min_of, List.foldlM_cons, h1]
  rfl

end DisjointHelpers

/-- Claim C8 counterexample: the disjoint grids (0,0,5,5) and
(5.2, 5.2, 9.2, 9.2) with unit cells.  `RasterEnvelope.intersection` fails,
but with the `invalidEnvelope` error raised by the `Envelope` constructor
on the inverted plain intersection ("Invalid envelope shape"), not with
the `disjointEnvelopes` error ("The two envelopes do not overlap"). -/
theorem intersection_disjoint_error_kind :
    mkRasterEnvelope 0 0 5 5 1 = .ok ⟨0, 0, 5, 5, 1, 5, 5⟩ ∧
    mkRasterEnvelope (26/5) (26/5) (46/5) (46/5) 1 =
      .ok ⟨26/5, 26/5, 46/5, 46/5, 1, 4, 4⟩ ∧
    RasterEnvelope.intersection ⟨0, 0, 5, 5, 1, 5, 5⟩ ⟨26/5, 26/5, 46/5, 46/5, 1, 4, 4⟩
      true = .error .invalidEnvelope ∧
    RasterEnvelope.intersection ⟨0, 0, 5, 5, 1, 5, 5⟩ ⟨26/5, 26/5, 46/5, 46/5, 1, 4, 4⟩
      false = .error .invalidEnvelope ∧
    EnvelopeError.invalidEnvelope ≠ EnvelopeError.disjointEnvelopes := by
  refine ⟨?_, ?_, ?_, ?_, by simp⟩
  · norm_num [mkRasterEnvelope, mkEnvelope, calculate_snapped_window, get_num_cells,
      ratTrunc, pyFmod, Except.bind]
  · norm_num [mkRasterEnvelope, mkEnvelope, calculate_snapped_window, get_num_cells,
      ratTrunc, pyFmod, Except.bind]
  · norm_num [RasterEnvelope.intersection, RasterEnvelope.is_snapped_subset,
      RasterEnvelope.is_snapped_superset, RasterEnvelope.is_snapped,
      Envelope.is_subset, Envelope.is_superset, RasterEnvelope.toEnvelope,
      pyFmod, ratTrunc, Envelope.intersection, mkEnvelope, Except.bind]
  · norm_num [RasterEnvelope.intersection, RasterEnvelope.is_snapped_subset,
      RasterEnvelope.is_snapped_superset, RasterEnvelope.is_snapped,
      Envelope.is_subset, Envelope.is_superset, RasterEnvelope.toEnvelope,
      pyFmod, ratTrunc, Envelope.intersection, mkEnvelope, Except.bind]

/-- Claim C8 amended: on disjoint (or merely touching) inputs every one of
these operations fails and produces no result object, but
`RasterEnvelope.intersection` — and therefore the `min_of` fold — surfaces
the `invalidEnvelope` error from constructing the inverted plain
intersection, while only `get_minimum_bounding_envelope` itself raises
`disjointEnvelopes`. -/
theorem disjoint_inputs_fail_without_result :
    (∀ (self other : RasterEnvelope) (flag : Bool),
      self.x_min < self.x_max → self.y_min < self.y_max →
      other.x_min < other.x_max → other.y_min < other.y_max →
      self.toEnvelope.intersection other.toEnvelope = .error .invalidEnvelope →
      self.intersection other flag = .error .invalidEnvelope) ∧
    (∀ (bound : Envelope) (snap : RasterEnvelope),
      bound.is_disjoint snap.toEnvelope = true →
      get_minimum_bounding_envelope bound snap = .error .disjointEnvelopes) ∧
    (∀ (a b : RasterEnvelope) (rest : List RasterEnvelope)
        (snap_opt : Option RasterEnvelope),
      a.x_min < a.x_max → a.y_min < a.y_max →
      b.x_min < b.x_max → b.y_min < b.y_max →
      a.toEnvelope.intersection b.toEnvelope = .error .invalidEnvelope →
      min_of a (b :: rest) snap_opt = .error .invalidEnvelope) :=
  ⟨fun _ _ flag hsx hsy hox hoy hint =>
      raster_intersection_plain_invalid flag hsx hsy hox hoy hint,
    fun _ _ hd => mbe_disjoint_error hd,
    fun _ _ _ _ hax hay hbx hby hint => min_of_plain_invalid hax hay hbx hby hint⟩

section SizeHelpers

lemma union_ok_WF {a b : RasterEnvelope} {flag : Bool} {r : RasterEnvelope}
    (ha : WF a) (hb : WF b) (h : a.union b flag = .ok r) : WF r := by
  unfold RasterEnvelope.union at h
  by_cases h1 : a.is_snapped_subset b = true
  · rw [if_pos h1] at h
    cases h
    exact hb
  · rw [if_neg h1] at h
    by_cases h2 : a.is_snapped_superset b = true
    · rw [if_pos h2] at h
      cases h
      exact ha
    · rw [if_neg h2] at h
      by_cases h3 : a.toEnvelope.is_subset b.toEnvelope = true
      · rw [if_pos h3] at h
        cases flag with
        | false =>
          simp only [Bool.false_eq_true, if_false] at h
          cases h
          exact hb
        | true =>
          rw [if_pos rfl] at h
          exact get_minimum_bounding_envelope_ok_WF ha.1 h
      · rw [if_neg h3] at h
        by_cases h4 : a.toEnvelope.is_superset b.toEnvelope = true
        · rw [if_pos h4] at h
          cases flag with
          | false =>
            simp only [Bool.false_eq_true, if_false] at h
            exact get_minimum_bounding_envelope_ok_WF hb.1 h
          | true =>
            rw [if_pos rfl] at h
            cases h
            exact ha
        · rw [if_neg h4] at h
          obtain ⟨env, _, hf⟩ := except_bind_ok h
          cases flag with
          | false =>
            simp only [Bool.false_eq_true, if_false] at hf
            exact get_minimum_bounding_envelope_ok_WF hb.1 hf
          | true =>
            rw [if_pos rfl] at hf
            exact get_minimum_bounding_envelope_ok_WF ha.1 hf

lemma intersection_ok_WF {a b : RasterEnvelope} {flag : Bool} {r : RasterEnvelope}
    (ha : WF a) (hb : WF b) (h : a.intersection b flag = .ok r) : WF r := by
  unfold RasterEnvelope.intersection at h
  by_cases h1 : a.is_snapped_subset b = true
  · rw [if_pos h1] at h
    cases h
    exact ha
  · rw [if_neg h1] at h
    by_cases h2 : a.is_snapped_superset b = true
    · rw [if_pos h2] at h
      cases h
      exact hb
    · rw [if_neg h2] at h
      by_cases h3 : a.toEnvelope.is_subset b.toEnvelope = true
      · rw [if_pos h3] at h
        cases flag with
        | false =>
          simp only [Bool.false_eq_true, if_false] at h
          exact get_minimum_bounding_envelope_ok_WF hb.1 h
        | true =>
          rw [if_pos rfl] at h
          cases h
          exact ha
      · rw [if_neg h3] at h
        by_cases h4 : a.toEnvelope.is_superset b.toEnvelope = true
        · rw [if_pos h4] at h
          cases flag with
          | false =>
            simp only [Bool.false_eq_true, if_false] at h
            cases h
            exact hb
          | true =>
            rw [if_pos rfl] at h
            exact get_minimum_bounding_envelope_ok_WF ha.1 h
        · rw [if_neg h4] at h
          obtain ⟨env, _, hf⟩ := except_bind_ok h
          cases flag with
          | false =>
            simp only [Bool.false_eq_true, if_false] at hf
            exact get_minimum_bounding_envelope_ok_WF hb.1 hf
          | true =>
            rw [if_pos rfl] at hf
            exact get_minimum_bounding_envelope_ok_WF ha.1 hf

lemma foldlM_except_preserve {α : Type}
    (step : RasterEnvelope → α → Except EnvelopeError RasterEnvelope)
    (P : RasterEnvelope → Prop)
    (hstep : ∀ acc x r, step acc x = .ok r → P r) :
    ∀ (l : List α) (acc r : RasterEnvelope),
      P acc → l.foldlM step acc = .ok r → P r := by
  intro l
  induction l with
  | nil =>
    intro acc r hP h
    rw [List.foldlM_nil] at h
    have h2 : (Except.ok acc : Except EnvelopeError RasterEnvelope) = .ok r := h
    cases h2
    exact hP
  | cons x xs ih =>
    intro acc r hP h
    rw [List.foldlM_cons] at h
    have h2 : (step acc x).bind (fun b => xs.foldlM step b) = .ok r := h
    obtain ⟨a1, ha1, hrest⟩ := except_bind_ok h2
    exact ih a1 r (hstep acc x a1 ha1) hrest

end SizeHelpers

/-- Claim C10: every `RasterEnvelope` any operation of the algebra
successfully produces — direct construction, `union`, `intersection`,
`get_minimum_bounding_envelope`, or the reducers — has at least one cell
in each dimension. -/
theorem every_envelope_covers_a_cell :
    (∀ (x_min y_min x_max y_max c : ℚ) (r : RasterEnvelope), 0 < c →
      mkRasterEnvelope x_min y_min x_max y_max c = .ok r →
      1 ≤ r.x_size ∧ 1 ≤ r.y_size) ∧
    (∀ (bound : Envelope) (snap r : RasterEnvelope), 0 < snap.cell_size →
      get_minimum_bounding_envelope bound snap = .ok r →
      1 ≤ r.x_size ∧ 1 ≤ r.y_size) ∧
    (∀ (a b : RasterEnvelope) (flag : Bool) (r : RasterEnvelope), WF a → WF b →
      a.union b flag = .ok r → 1 ≤ r.x_size ∧ 1 ≤ r.y_size) ∧
    (∀ (a b : RasterEnvelope) (flag : Bool) (r : RasterEnvelope), WF a → WF b →
      a.intersection b flag = .ok r → 1 ≤ r.x_size ∧ 1 ≤ r.y_size) ∧
    (∀ (re0 : RasterEnvelope) (rest : List RasterEnvelope)
        (snap_opt : Option RasterEnvelope) (r : RasterEnvelope),
      WF re0 → (∀ s, snap_opt = some s → WF s) →
      min_of re0 rest snap_opt = .ok r → 1 ≤ r.x_size ∧ 1 ≤ r.y_size) ∧
    (∀ (re0 : RasterEnvelope) (rest : List RasterEnvelope)
        (snap_opt : Option RasterEnvelope) (r : RasterEnvelope),
      WF re0 → (∀ s, snap_opt = some s → WF s) →
      max_of re0 rest snap_opt = .ok r → 1 ≤ r.x_size ∧ 1 ≤ r.y_size) := by
  have hsnap_wf : ∀ (re0 : RasterEnvelope) (snap_opt : Option RasterEnvelope),
      WF re0 → (∀ s, snap_opt = some s → WF s) → 0 < (snap_opt.getD re0).cell_size := by
    intro re0 snap_opt h0 hs
    cases snap_opt with
    | none => exact h0.1
    | some s => exact (hs s rfl).1
  refine ⟨?_, ?_, ?_, ?_, ?_, ?_⟩
  · intro x_min y_min x_max y_max c r hc h
    exact WF_sizes (mkRasterEnvelope_ok_WF hc h)
  · intro bound snap r hc h
    exact WF_sizes (get_minimum_bounding_envelope_ok_WF hc h)
  · intro a b flag r ha hb h
    exact WF_sizes (union_ok_WF ha hb h)
  · intro a b flag r ha hb h
    exact WF_sizes (intersection_ok_WF ha hb h)
  · intro re0 rest snap_opt r h0 hs h
    have hc := hsnap_wf re0 snap_opt h0 hs
    simp only [min_of] at h
    refine foldlM_except_preserve _ (fun e => 1 ≤ e.x_size ∧ 1 ≤ e.y_size) ?_ rest re0 r
      (WF_sizes h0) h
    intro acc x r2 hstep
    obtain ⟨env, _, hmbe⟩ := except_bind_ok hstep
    exact WF_sizes (get_minimum_bounding_envelope_ok_WF hc hmbe)
  · intro re0 rest snap_opt r h0 hs h
    have hc := hsnap_wf re0 snap_opt h0 hs
    simp only [max_of] at h
    refine foldlM_except_preserve _ (fun e => 1 ≤ e.x_size ∧ 1 ≤ e.y_size) ?_ rest re0 r
      (WF_sizes h0) h
    intro acc x r2 hstep
    obtain ⟨env, _, hmbe⟩ := except_bind_ok hstep
    exact WF_sizes (get_minimum_bounding_envelope_ok_WF hc hmbe)

end SpatialTools
